import Mathlib

/-!
Shallow embedding of the palimpsest issue-sync scripts
(`sync_items.py` and `create_pali_issues.py`).

Strings are modelled as `List Char` (`Str`); Python's `str.strip`,
truthiness of optional strings, `find`, slicing and `split(" ")[0]`
are embedded explicitly.  Network calls are modelled by returning the
payloads / events the code would emit instead of performing I/O.
-/

set_option maxHeartbeats 1000000

abbrev Str := List Char

/-- Coerce a Lean string literal to the `List Char` model. -/
def S (s : String) : Str := s.toList

/-- ASCII whitespace as stripped by Python's `str.strip()`. -/
def isPySpace (c : Char) : Bool :=
  c == ' ' || c == '\t' || c == '\n' || c == '\r' || c == '\x0b' || c == '\x0c'

/-- Python `str.strip()`: remove leading and trailing whitespace. -/
def pyStrip (s : Str) : Str :=
  ((s.dropWhile isPySpace).reverse.dropWhile isPySpace).reverse

/-- Python `a or b` on an optional string: `None` and `""` are falsy. -/
def pyOr (a : Option Str) (b : Str) : Str :=
  match a with
  | none => b
  | some s => if s.isEmpty then b else s

/-- Python truthiness of an optional string (`None` and `""` falsy). -/
def optTruthy (o : Option Str) : Option Str :=
  match o with
  | none => none
  | some s => if s.isEmpty then none else some s

/-- The four work-item kinds of `KIND_CONFIG`. -/
inductive Kind where
  | epic
  | story
  | task
  | subtask
deriving DecidableEq, BEq

/-- A flattened work item as produced by `load_flat_items`. -/
structure FlatItem where
  id : Str
  kind : Kind
  phase : Str
  priority : Str
  title : Str
  description : Str
  epicId : Option Str
  storyId : Option Str
  taskId : Option Str
deriving DecidableEq

/-- The fields of a remote GitHub issue that the scripts read. -/
structure Issue where
  number : Nat
  numericId : Nat
  title : Str
  body : Str
  labels : List Str
deriving DecidableEq

/-- `PRIORITY_LABELS = {"P0", "P1", "P2"}` from `sync_items.py`. -/
def PRIORITY_LABELS : List Str := [S "P0", S "P1", S "P2"]

/-- Consume the literal `lit` from the front of `s`; `none` if `lit` is
not a prefix of `s`, otherwise the remainder.  Used to embed the
regular expressions of the scripts. -/
def eatLit : Str → Str → Option Str
  | [], s => some s
  | _ :: _, [] => none
  | c :: l, d :: s => if c == d then eatLit l s else none

/-- Match `consume ++ \d+` at the head of `s`: return the capture
`capPre ++ digits` and the rest of the string. -/
def capSeg (consume : Str) (capPre : Str) (s : Str) : Option (Str × Str) :=
  match eatLit consume s with
  | none => none
  | some r =>
    match r with
    | [] => none
    | c :: _ =>
      if c.isDigit then
        some (capPre ++ r.takeWhile Char.isDigit, r.dropWhile Char.isDigit)
      else none

/-- `extract_id_segment_labels`: apply
`^PALI-(E\d+)(?:-(S\d+))?(?:-(T\d+))?(?:-(ST\d+))?$` and collect the
non-empty groups, e.g. `PALI-E1-S5-T3-ST2 ↦ [E1, S5, T3, ST2]`.
Each optional group is committed when it matches: skipping a matching
group can never rescue the overall match, because the following
alternatives all start with a different literal or require the end of
the string, so the committed matcher coincides with the regex. -/
def extractIdSegmentLabels (itemId : Str) : List Str :=
  match eatLit (S "PALI-") itemId with
  | none => []
  | some r0 =>
    match capSeg (S "E") (S "E") r0 with
    | none => []
    | some (g1, r1) =>
      let p2 := match capSeg (S "-S") (S "S") r1 with
                | some (g, r) => ([g], r)
                | none => ([], r1)
      let p3 := match capSeg (S "-T") (S "T") p2.2 with
                | some (g, r) => ([g], r)
                | none => ([], p2.2)
      let p4 := match capSeg (S "-ST") (S "ST") p3.2 with
                | some (g, r) => ([g], r)
                | none => ([], p3.2)
      if p4.2.isEmpty then g1 :: (p2.1 ++ p3.1 ++ p4.1) else []

/-- `compute_labels` from `sync_items.py`: ensure the kind base label,
ensure the identifier segment labels, drop every priority label, then
append the current priority when it belongs to `PRIORITY_LABELS`. -/
def computeLabels (currentLabels : List Str) (itemLabel : Str)
    (priority : Str) (itemId : Str) : List Str :=
  let n1 := if currentLabels.contains itemLabel then currentLabels
            else currentLabels ++ [itemLabel]
  let n2 := (extractIdSegmentLabels itemId).foldl
              (fun acc seg => if acc.contains seg then acc else acc ++ [seg]) n1
  let n3 := n2.filter (fun l => !(PRIORITY_LABELS.contains l))
  if PRIORITY_LABELS.contains priority && !(n3.contains priority) then
    n3 ++ [priority]
  else n3

/-- Whether `compute_labels` of `sync_items.py` prints its
`[WARN] Unknown priority` line: exactly when the priority is outside
`PRIORITY_LABELS` (the `elif` branch). -/
def computeLabelsWarns (priority : Str) : Bool :=
  !(PRIORITY_LABELS.contains priority)

/-- `EPIC_LABEL = "Epics"` from `create_pali_issues.py`. -/
def EPIC_LABEL : Str := S "Epics"

/-- `compute_labels` from `create_pali_issues.py`: ensure the Epics
label, drop every priority label, then append the given priority
unconditionally (no membership check and no warning). -/
def computeLabelsPali (currentLabels : List Str) (priority : Str) : List Str :=
  let prioritySet : List Str := [S "P0", S "P1", S "P2"]
  let n1 := if currentLabels.contains EPIC_LABEL then currentLabels
            else currentLabels ++ [EPIC_LABEL]
  let n2 := n1.filter (fun l => !(prioritySet.contains l))
  if n2.contains priority then n2 else n2 ++ [priority]

/-- `desired_title`: `f"[{item['id']}] {item['title']}"`. -/
def desiredTitle (item : FlatItem) : Str :=
  '[' :: item.id ++ ']' :: ' ' :: item.title

/-- The `kind_word` dictionary of `desired_body`. -/
def kindWord : Kind → Str
  | .epic => S "Epic"
  | .story => S "Story"
  | .task => S "Task"
  | .subtask => S "Sub-task"

/-- `desired_body(item, config_path)`: the deterministic markdown body,
lines joined with a newline. -/
def desiredBody (item : FlatItem) (configPath : Str) : Str :=
  let descBlock :=
    if item.description.isEmpty then
      S "TODO: add a clear goal / description for this item."
    else item.description
  let base : List Str :=
    [ S "# " ++ item.id ++ S " – " ++ item.title,
      [],
      S "**ID:** " ++ item.id ++ S "  ",
      S "**Kind:** " ++ kindWord item.kind ++ S "  ",
      S "**Phase:** " ++ item.phase ++ S "  ",
      S "**Priority:** " ++ item.priority ++ S "  " ]
  let withEpic := base ++
    (match optTruthy item.epicId with
     | some e => [S "**Epic:** " ++ e ++ S "  "]
     | none => [])
  let withStory := withEpic ++
    (match optTruthy item.storyId with
     | some s => [S "**Story:** " ++ s ++ S "  "]
     | none => [])
  let withTask := withStory ++
    (match optTruthy item.taskId with
     | some t => [S "**Task:** " ++ t ++ S "  "]
     | none => [])
  let allLines := withTask ++
    [ [],
      S "**Goal / Description**  ",
      descBlock,
      [],
      S "---",
      [],
      S "This issue is fully managed by `" ++ configPath ++ S "`.",
      S "Edit YAML, then rerun the sync script." ]
  List.intercalate ['\n'] allLines

/-- `BASE_ID_PREFIX = "PALI"`. -/
def BASE_ID_PREFIX : Str := S "PALI"

/-- `extract_id_from_title`: strip the title; in the bracketed format
`[ID] rest` return the stripped text before the first `]`; otherwise
return the first space-separated token when it starts with `PALI`. -/
def extractIdFromTitle (title : Str) : Option Str :=
  let t := pyStrip title
  let firstToken := t.takeWhile (fun c => !(c == ' '))
  let fallback := if (eatLit BASE_ID_PREFIX firstToken).isSome then
                    some firstToken
                  else none
  if t.head? = some '[' then
    match t.findIdx? (fun ch => ch == ']') with
    | some closing => some (pyStrip ((t.drop 1).take (closing - 1)))
    | none => fallback
  else fallback

/-- One `PREFIX\d+` step of a kind's `id_regex`: consume the literal
then one or more digits. -/
def eatSeg (lit : Str) (s : Str) : Option Str :=
  match eatLit lit s with
  | none => none
  | some r =>
    match r with
    | [] => none
    | c :: _ => if c.isDigit then some (r.dropWhile Char.isDigit) else none

/-- The literal parts of each kind's `id_regex` in `KIND_CONFIG`. -/
def kindSegLits : Kind → List Str
  | .epic => [S "PALI-E"]
  | .story => [S "PALI-E", S "-S"]
  | .task => [S "PALI-E", S "-S", S "-T"]
  | .subtask => [S "PALI-E", S "-S", S "-T", S "-ST"]

/-- `re.match` of a kind's anchored `id_regex` (e.g.
`^PALI-E\d+-S\d+$`) against the whole string.  Maximal-munch digit
runs coincide with the regex because every `\d+` is followed by a
non-digit literal or the end of the pattern. -/
def idRegexMatch (k : Kind) (s : Str) : Bool :=
  match (kindSegLits k).foldl (fun acc lit => acc.bind (eatSeg lit)) (some s) with
  | some rest => rest.isEmpty
  | none => false

/-- The kind base labels of `KIND_CONFIG`. -/
def kindLabel : Kind → Str
  | .epic => S "Epics"
  | .story => S "Stories"
  | .task => S "Tasks"
  | .subtask => S "Sub-tasks"

/-- Bool version of Python `set(l1) == set(l2)`. -/
def setEqB (l1 l2 : List Str) : Bool :=
  l1.all (fun a => l2.contains a) && l2.all (fun a => l1.contains a)

/-- The PATCH payload `update_item` would send. -/
structure UpdatePayload where
  title : Str
  body : Str
  labels : List Str
deriving DecidableEq

/-- `update_item`: compare current title/body/labels against desired;
return the PATCH payload when an update is needed, `none` on the
`[SKIP]` path (no network call). -/
def updateItemCall (issue : Issue) (item : FlatItem) (itemLabel : Str)
    (configPath : Str) : Option UpdatePayload :=
  let currentTitle := issue.title
  let currentLabels := issue.labels
  let newTitle := desiredTitle item
  let newBody := desiredBody item configPath
  let newLabels := computeLabels currentLabels itemLabel item.priority item.id
  let needsUpdate :=
    !(currentTitle == newTitle) || !(issue.body == newBody) ||
      !(setEqB currentLabels newLabels)
  if needsUpdate then some ⟨newTitle, newBody, newLabels⟩ else none

/-- `valid_ids = {it["id"] for it in flat_items if it["kind"] == kind}`. -/
def validIds (kind : Kind) (flatItems : List FlatItem) : List Str :=
  (flatItems.filter (fun it => it.kind == kind)).map (fun it => it.id)

/-- `prune_items`: walk the kind-scoped directory (an association list
with the insertion order and unique keys of a Python dict) and emit a
close call `(issue_id, number)` for every identifier not in the valid
set. -/
def pruneCloseCalls (kind : Kind) (flatItems : List FlatItem)
    (existingMap : List (Str × Issue)) : List (Str × Nat) :=
  existingMap.flatMap (fun p =>
    if (validIds kind flatItems).contains p.1 then []
    else [(p.1, p.2.number)])

/-- Python `dict.get` on the association-list model of a directory. -/
def lookupIssue (m : List (Str × Issue)) (k : Str) : Option Issue :=
  (m.find? (fun p => p.1 == k)).map (fun p => p.2)

/-- Observable events of the sub-issue linking pass. -/
inductive LinkEvent where
  | call (parentNumber : Nat) (childNumericId : Nat)
  | warnNoParent (itemId : Str) (parentKey : Str)
deriving DecidableEq

/-- The `parent_key` resolution of `sync_sub_issue_links`, including
the Python truthiness guards on the parent-id field and on
`parent_key` itself. -/
def parentKeyOf (item : FlatItem) : Option Str :=
  match item.kind with
  | .epic => none
  | .story => optTruthy item.epicId
  | .task => optTruthy item.storyId
  | .subtask => optTruthy item.taskId

/-- The body of the `sync_sub_issue_links` loop for one item: silently
skip when the item's own issue is absent, skip when there is no parent
key, warn (and skip) when the parent issue is absent, otherwise emit
the create-relationship call. -/
def processLinkItem (allIssues : List (Str × Issue)) (item : FlatItem) :
    List LinkEvent :=
  match lookupIssue allIssues item.id with
  | none => []
  | some issue =>
    match parentKeyOf item with
    | none => []
    | some parentKey =>
      match lookupIssue allIssues parentKey with
      | none => [LinkEvent.warnNoParent item.id parentKey]
      | some parentIssue => [LinkEvent.call parentIssue.number issue.numericId]

/-- `sync_sub_issue_links` over the whole flat item list. -/
def syncSubIssueLinks (allIssues : List (Str × Issue))
    (flatItems : List FlatItem) : List LinkEvent :=
  flatItems.flatMap (processLinkItem allIssues)

/-- Outcome classification of `add_sub_issue` by HTTP status. -/
inductive LinkOutcome where
  | linked
  | skipExists
  | failed
deriving DecidableEq

/-- `add_sub_issue`: 201 → `[LINK]`, 422 → `[LINK-SKIP]` ("relationship
already exists", treated as a no-op), anything else → `[LINK-FAILED]`.
All branches return normally; none raises. -/
def addSubIssueOutcome (status : Nat) : LinkOutcome :=
  if status == 201 then LinkOutcome.linked
  else if status == 422 then LinkOutcome.skipExists
  else LinkOutcome.failed

/-- A subtask node of the YAML configuration: `id`/`title` required,
`phase`/`priority`/`description` optional. -/
structure SubCfg where
  id : Str
  phase : Option Str
  priority : Option Str
  title : Str
  description : Option Str
deriving DecidableEq

/-- A task node of the YAML configuration. -/
structure TaskCfg where
  id : Str
  phase : Option Str
  priority : Option Str
  title : Str
  description : Option Str
  subtasks : List SubCfg
deriving DecidableEq

/-- A story node of the YAML configuration. -/
structure StoryCfg where
  id : Str
  phase : Option Str
  priority : Option Str
  title : Str
  description : Option Str
  tasks : List TaskCfg
deriving DecidableEq

/-- An epic node of the YAML configuration: `phase` and `priority` are
required at this level (`epic["phase"]` would raise otherwise). -/
structure EpicCfg where
  id : Str
  phase : Str
  priority : Str
  title : Str
  description : Option Str
  stories : List StoryCfg
deriving DecidableEq

/-- `load_flat_items`: flatten the hierarchy in document order (each
parent immediately before its children), resolving `phase`/`priority`
top-down with `(child.get(f) or parentResolved).strip()`. -/
def loadFlatItems (epics : List EpicCfg) : List FlatItem :=
  epics.flatMap (fun epic =>
    let epicId := pyStrip epic.id
    let epicPhase := pyStrip epic.phase
    let epicPriority := pyStrip epic.priority
    { id := epicId, kind := Kind.epic, phase := epicPhase,
      priority := epicPriority, title := pyStrip epic.title,
      description := pyStrip (pyOr epic.description []),
      epicId := none, storyId := none, taskId := none } ::
    epic.stories.flatMap (fun story =>
      let storyId := pyStrip story.id
      let storyPhase := pyStrip (pyOr story.phase epicPhase)
      let storyPriority := pyStrip (pyOr story.priority epicPriority)
      { id := storyId, kind := Kind.story, phase := storyPhase,
        priority := storyPriority, title := pyStrip story.title,
        description := pyStrip (pyOr story.description []),
        epicId := some epicId, storyId := none, taskId := none } ::
      story.tasks.flatMap (fun task =>
        let taskId := pyStrip task.id
        let taskPhase := pyStrip (pyOr task.phase storyPhase)
        let taskPriority := pyStrip (pyOr task.priority storyPriority)
        { id := taskId, kind := Kind.task, phase := taskPhase,
          priority := taskPriority, title := pyStrip task.title,
          description := pyStrip (pyOr task.description []),
          epicId := some epicId, storyId := some storyId, taskId := none } ::
        task.subtasks.map (fun sub =>
          { id := pyStrip sub.id, kind := Kind.subtask,
            phase := pyStrip (pyOr sub.phase taskPhase),
            priority := pyStrip (pyOr sub.priority taskPriority),
            title := pyStrip sub.title,
            description := pyStrip (pyOr sub.description []),
            epicId := some epicId, storyId := some storyId,
            taskId := some taskId }))))

/-- The resolved (effective) phase of a story, as computed inside
`load_flat_items`. -/
def storyEffPhase (epic : EpicCfg) (story : StoryCfg) : Str :=
  pyStrip (pyOr story.phase (pyStrip epic.phase))

/-- The resolved (effective) priority of a story. -/
def storyEffPriority (epic : EpicCfg) (story : StoryCfg) : Str :=
  pyStrip (pyOr story.priority (pyStrip epic.priority))

/-- The resolved (effective) phase of a task. -/
def taskEffPhase (epic : EpicCfg) (story : StoryCfg) (task : TaskCfg) : Str :=
  pyStrip (pyOr task.phase (storyEffPhase epic story))

/-- The resolved (effective) priority of a task. -/
def taskEffPriority (epic : EpicCfg) (story : StoryCfg) (task : TaskCfg) : Str :=
  pyStrip (pyOr task.priority (storyEffPriority epic story))

theorem mem_ensureLabel (l : List Str) (x a : Str) :
    a ∈ (if l.contains x then l else l ++ [x]) ↔ a ∈ l ∨ a = x := by
  by_cases h : x ∈ l
  · simp only [List.elem_iff.mpr h, if_true]
    constructor
    · exact Or.inl
    · rintro (ha | rfl) <;> assumption
  · have hc : l.contains x = false := by simp [h]
    simp [hc, h]

theorem mem_foldl_ensure (segs : List Str) (init : List Str) (a : Str) :
    a ∈ segs.foldl (fun acc seg => if acc.contains seg then acc else acc ++ [seg]) init ↔
      a ∈ init ∨ a ∈ segs := by
  induction segs generalizing init with
  | nil => simp
  | cons s rest ih =>
    simp only [List.foldl_cons, ih, mem_ensureLabel, List.mem_cons]
    tauto

/-- Membership in the output of `compute_labels` (`sync_items.py`):
exactly the non-priority labels among current/kind/segment labels,
plus the current priority when it is a known one. -/
theorem mem_computeLabels (cur : List Str) (L p itemId a : Str) :
    a ∈ computeLabels cur L p itemId ↔
      ((a ∈ cur ∨ a = L ∨ a ∈ extractIdSegmentLabels itemId) ∧ a ∉ PRIORITY_LABELS)
        ∨ (p ∈ PRIORITY_LABELS ∧ a = p) := by
  classical
  simp only [computeLabels]
  set n2 := (extractIdSegmentLabels itemId).foldl
      (fun acc seg => if acc.contains seg then acc else acc ++ [seg])
      (if cur.contains L then cur else cur ++ [L]) with hn2
  have h2 : ∀ x, x ∈ n2 ↔ (x ∈ cur ∨ x = L ∨ x ∈ extractIdSegmentLabels itemId) := by
    intro x
    rw [hn2, mem_foldl_ensure, mem_ensureLabel]
    tauto
  set n3 := n2.filter (fun l => !(PRIORITY_LABELS.contains l)) with hn3
  have h3 : ∀ x, x ∈ n3 ↔
      ((x ∈ cur ∨ x = L ∨ x ∈ extractIdSegmentLabels itemId) ∧ x ∉ PRIORITY_LABELS) := by
    intro x
    rw [hn3]
    simp only [List.mem_filter, Bool.not_eq_true', ← h2]
    constructor
    · rintro ⟨hx, hc⟩
      exact ⟨hx, by simpa using hc⟩
    · rintro ⟨hx, hc⟩
      exact ⟨hx, by simpa using hc⟩
  by_cases hp : p ∈ PRIORITY_LABELS
  · have hpc : PRIORITY_LABELS.contains p = true := by simpa using hp
    have hpn : n3.contains p = false := by
      rw [Bool.eq_false_iff]
      intro hc
      exact ((h3 p).mp (List.elem_iff.mp hc)).2 hp
    rw [hpc, hpn]
    simp only [Bool.not_false, Bool.and_true, if_true, List.mem_append,
      List.mem_singleton, h3]
    constructor
    · rintro (h | rfl)
      · exact Or.inl h
      · exact Or.inr ⟨hp, rfl⟩
    · rintro (h | ⟨_, rfl⟩)
      · exact Or.inl h
      · exact Or.inr rfl
  · have hpc : PRIORITY_LABELS.contains p = false := by simpa using hp
    rw [hpc]
    simp only [Bool.false_and, Bool.false_eq_true, if_false, h3]
    constructor
    · exact Or.inl
    · rintro (h | ⟨hpp, _⟩)
      · exact h
      · exact absurd hpp hp

/-- Claim C1 (counterexample): `compute_labels` of
`create_pali_issues.py`, called with the unknown priority `"P9"`, adds
`"P9"` as a label even though it is outside the fixed priority-label
set, and the function has no warning branch — contradicting the claim
that every `compute_labels` adds nothing and warns in that case. -/
theorem computeLabelsPali_adds_unknown_priority :
    (S "P9") ∉ PRIORITY_LABELS ∧ (S "P9") ∈ computeLabelsPali [] (S "P9") := by
  decide

/-- Claim C1 (amended): for `compute_labels` of `sync_items.py` the
current priority is added exactly when it belongs to
`PRIORITY_LABELS`, and otherwise a warning is emitted and the result
contains no priority label at all; `compute_labels` of
`create_pali_issues.py` instead always ends up with the given priority
in its result, with no membership check and no warning. -/
theorem computeLabels_priority_policy (cur : List Str) (L p itemId : Str) :
    (p ∈ PRIORITY_LABELS →
      computeLabelsWarns p = false ∧ p ∈ computeLabels cur L p itemId) ∧
    (p ∉ PRIORITY_LABELS →
      computeLabelsWarns p = true ∧
        ∀ a ∈ computeLabels cur L p itemId, a ∉ PRIORITY_LABELS) ∧
    p ∈ computeLabelsPali cur p := by
  refine ⟨?_, ?_, ?_⟩
  · intro hp
    refine ⟨by simp [computeLabelsWarns, hp], ?_⟩
    exact (mem_computeLabels cur L p itemId p).mpr (Or.inr ⟨hp, rfl⟩)
  · intro hp
    refine ⟨by simpa [computeLabelsWarns] using hp, ?_⟩
    intro a ha
    rcases (mem_computeLabels cur L p itemId a).mp ha with ⟨_, hnP⟩ | ⟨hpp, _⟩
    · exact hnP
    · exact absurd hpp hp
  · simp only [computeLabelsPali]
    set n2 := (if cur.contains EPIC_LABEL then cur else cur ++ [EPIC_LABEL]).filter
      (fun l => !([S "P0", S "P1", S "P2"].contains l)) with hn2
    by_cases hc : n2.contains p
    · rw [if_pos hc]
      exact List.elem_iff.mp hc
    · rw [if_neg hc]
      simp

/-- Claim C1 witness: at a known priority the `sync_items` version
keeps it, emitting no warning. -/
theorem computeLabels_priority_policy_witness :
    computeLabelsWarns (S "P0") = false ∧
      (S "P0") ∈ computeLabels [] (S "Epics") (S "P0") (S "PALI-E1") :=
  (computeLabels_priority_policy [] (S "Epics") (S "P0") (S "PALI-E1")).1
    (by decide)

/-- Claim C3: `compute_labels` (`sync_items.py`) is idempotent up to
set equality — feeding its own output back in with the same kind
label, priority and identifier does not change the label set. -/
theorem computeLabels_idempotent (cur : List Str) (L p itemId a : Str) :
    a ∈ computeLabels (computeLabels cur L p itemId) L p itemId ↔
      a ∈ computeLabels cur L p itemId := by
  simp only [mem_computeLabels]
  tauto

/-- Claim C4: `compute_labels` (`sync_items.py`) never drops a label
outside the governed sets: any current label that is not the kind base
label, not a segment label of the identifier, and not a priority label
is still in the result. -/
theorem computeLabels_preserves_ungoverned (cur : List Str) (L p itemId a : Str)
    (ha : a ∈ cur) (_hL : a ≠ L) (_hseg : a ∉ extractIdSegmentLabels itemId)
    (hP : a ∉ PRIORITY_LABELS) :
    a ∈ computeLabels cur L p itemId :=
  (mem_computeLabels cur L p itemId a).mpr (Or.inl ⟨Or.inl ha, hP⟩)

/-- Claim C4 witness: a foreign label survives a concrete call. -/
theorem computeLabels_preserves_ungoverned_witness :
    (S "keep-me") ∈ computeLabels [S "keep-me"] (S "Epics") (S "P0") (S "PALI-E1") :=
  computeLabels_preserves_ungoverned [S "keep-me"] (S "Epics") (S "P0")
    (S "PALI-E1") (S "keep-me") (by decide) (by decide) (by decide) (by decide)

/-- Claim C9: `add_sub_issue` treats HTTP 422 ("relationship already
exists") as a logged skip rather than an error, and every other
non-201 status as a reported failure; both are ordinary return paths,
so the run never aborts. -/
theorem addSubIssue_conflict_is_noop :
    addSubIssueOutcome 422 = LinkOutcome.skipExists ∧
      ∀ s : Nat, s ≠ 201 → s ≠ 422 → addSubIssueOutcome s = LinkOutcome.failed := by
  constructor
  · rfl
  · intro s h1 h2
    have b1 : (s == 201) = false := by simpa using h1
    have b2 : (s == 422) = false := by simpa using h2
    simp [addSubIssueOutcome, b1, b2]

/-- Claim C9 witness: status 500 is classified as a failure. -/
theorem addSubIssue_conflict_is_noop_witness :
    addSubIssueOutcome 500 = LinkOutcome.failed :=
  addSubIssue_conflict_is_noop.2 500 (by decide) (by decide)

theorem countP_filter_not_contains (ps : List Str) (l : List Str) :
    (l.filter (fun x => !(ps.contains x))).countP (fun x => ps.contains x) = 0 := by
  rw [List.countP_eq_zero]
  intro a ha
  have h2 := (List.mem_filter.mp ha).2
  simp only [Bool.not_eq_true'] at h2
  intro hcontra
  rw [h2] at hcontra
  exact Bool.false_ne_true hcontra

/-- Claim C10: both `compute_labels` implementations return a list
holding at most one element of the fixed priority-label set, however
many priority labels the input held. -/
theorem labels_at_most_one_priority (cur : List Str) (L p itemId : Str) :
    (computeLabels cur L p itemId).countP (fun a => PRIORITY_LABELS.contains a) ≤ 1 ∧
    (computeLabelsPali cur p).countP (fun a => PRIORITY_LABELS.contains a) ≤ 1 := by
  constructor
  · simp only [computeLabels]
    set n2 := (extractIdSegmentLabels itemId).foldl
        (fun acc seg => if acc.contains seg then acc else acc ++ [seg])
        (if cur.contains L then cur else cur ++ [L]) with hn2
    have hz := countP_filter_not_contains PRIORITY_LABELS n2
    by_cases hcond : PRIORITY_LABELS.contains p &&
        !((n2.filter (fun l => !(PRIORITY_LABELS.contains l))).contains p)
    · rw [if_pos hcond, List.countP_append, hz]
      simp only [List.countP_cons, List.countP_nil]
      split <;> simp
    · rw [if_neg hcond, hz]
      exact Nat.zero_le 1
  · simp only [computeLabelsPali]
    set n1 := (if cur.contains EPIC_LABEL then cur else cur ++ [EPIC_LABEL]) with hn1
    have hz2 : (n1.filter (fun l => !([S "P0", S "P1", S "P2"].contains l))).countP
        (fun a => PRIORITY_LABELS.contains a) = 0 :=
      countP_filter_not_contains PRIORITY_LABELS n1
    by_cases hc : (n1.filter (fun l => !([S "P0", S "P1", S "P2"].contains l))).contains p
    · rw [if_pos hc, hz2]
      exact Nat.zero_le 1
    · rw [if_neg hc, List.countP_append, hz2]
      simp only [List.countP_cons, List.countP_nil]
      split <;> simp

/-- Claim C5: when the remote issue's current title, body and label
set already equal the desired title, body and label set, `update_item`
takes the `[SKIP]` branch: it sends no PATCH payload, leaving the
remote issue untouched. -/
theorem updateItem_noop_detection (issue : Issue) (item : FlatItem)
    (itemLabel configPath : Str)
    (h1 : issue.title = desiredTitle item)
    (h2 : issue.body = desiredBody item configPath)
    (h3 : setEqB issue.labels
      (computeLabels issue.labels itemLabel item.priority item.id) = true) :
    updateItemCall issue item itemLabel configPath = none := by
  simp [updateItemCall, h1, h2, h3]

def witItem5 : FlatItem :=
  { id := S "PALI-E1", kind := Kind.epic, phase := S "Phase 1",
    priority := S "P0", title := S "Ingestion", description := [],
    epicId := none, storyId := none, taskId := none }

def witIssue5 : Issue :=
  { number := 7, numericId := 100, title := desiredTitle witItem5,
    body := desiredBody witItem5 (S "config/pali_items.yaml"),
    labels := [S "Epics", S "E1", S "P0"] }

/-- Claim C5 witness: a concrete fully-synchronized issue is skipped. -/
theorem updateItem_noop_detection_witness :
    updateItemCall witIssue5 witItem5 (S "Epics") (S "config/pali_items.yaml") = none :=
  updateItem_noop_detection witIssue5 witItem5 (S "Epics")
    (S "config/pali_items.yaml") rfl rfl (by decide)

theorem count_pruneCloseCalls (kind : Kind) (flat : List FlatItem)
    (emap : List (Str × Issue)) (iid : Str)
    (hnodup : (emap.map Prod.fst).Nodup) :
    ((pruneCloseCalls kind flat emap).map Prod.fst).count iid =
      if iid ∈ emap.map Prod.fst ∧ iid ∉ validIds kind flat then 1 else 0 := by
  classical
  induction emap with
  | nil => simp [pruneCloseCalls]
  | cons hd rest ih =>
    obtain ⟨k, iss⟩ := hd
    simp only [List.map_cons, List.nodup_cons] at hnodup
    obtain ⟨hk, hrest⟩ := hnodup
    have ihr := ih hrest
    simp only [pruneCloseCalls, List.flatMap_cons] at *
    by_cases hv : k ∈ validIds kind flat
    · have hvc : (validIds kind flat).contains k = true := by simpa using hv
      rw [hvc]
      simp only [if_true, List.nil_append]
      rw [ihr]
      by_cases hik : iid = k
      · subst hik
        simp [hv, hk]
      · simp only [List.map_cons, List.mem_cons]
        by_cases hir : iid ∈ rest.map Prod.fst
        · simp [hir, hik]
        · simp [hir, hik]
    · have hvc : (validIds kind flat).contains k = false := by simpa using hv
      rw [hvc]
      simp only [Bool.false_eq_true, if_false, List.cons_append, List.nil_append,
        List.map_cons, List.count_cons]
      rw [ihr]
      by_cases hik : iid = k
      · subst hik
        have hirf : iid ∉ rest.map Prod.fst := hk
        simp [hirf, hv]
      · have : (k == iid) = false := by
          simp only [beq_eq_false_iff_ne, ne_eq]
          exact fun h => hik h.symm
        simp only [List.mem_cons, this]
        by_cases hir : iid ∈ rest.map Prod.fst
        · simp [hir, hik]
        · simp [hir, hik]

/-- Claim C6: over a kind-scoped directory with unique identifiers,
`prune_items` issues exactly one close call for every remote
identifier missing from the kind's configured valid-identifier set,
and none for an identifier present in it. -/
theorem prune_close_calls_exact (kind : Kind) (flat : List FlatItem)
    (emap : List (Str × Issue)) (iid : Str)
    (hnodup : (emap.map Prod.fst).Nodup) (hmem : iid ∈ emap.map Prod.fst) :
    (iid ∈ validIds kind flat →
       ((pruneCloseCalls kind flat emap).map Prod.fst).count iid = 0) ∧
    (iid ∉ validIds kind flat →
       ((pruneCloseCalls kind flat emap).map Prod.fst).count iid = 1) := by
  have h := count_pruneCloseCalls kind flat emap iid hnodup
  constructor
  · intro hv
    rw [h, if_neg]
    rintro ⟨_, hno⟩
    exact hno hv
  · intro hv
    rw [h, if_pos ⟨hmem, hv⟩]

def witFlat6 : List FlatItem :=
  [{ id := S "PALI-E1", kind := Kind.epic, phase := S "Phase 1",
     priority := S "P0", title := S "Ingestion", description := [],
     epicId := none, storyId := none, taskId := none }]

def witMap6 : List (Str × Issue) :=
  [(S "PALI-E1", { number := 1, numericId := 10, title := S "[PALI-E1] Ingestion",
                   body := [], labels := [] }),
   (S "PALI-E9", { number := 2, numericId := 20, title := S "[PALI-E9] Orphan",
                   body := [], labels := [] })]

/-- Claim C6 witness: the orphan `PALI-E9` gets exactly one close call. -/
theorem prune_close_calls_exact_witness :
    ((pruneCloseCalls Kind.epic witFlat6 witMap6).map Prod.fst).count (S "PALI-E9") = 1 :=
  (prune_close_calls_exact Kind.epic witFlat6 witMap6 (S "PALI-E9")
    (by decide) (by decide)).2 (by decide)

/-- Claim C8 (amended): for an item with a resolved parent key the
sub-issue linker issues no create-relationship call when either side
is missing from the directory, and the run continues — but only the
missing-parent case logs a warning; a missing child is skipped
silently (`continue` with no log line). -/
theorem linker_missing_issue_behavior (d : List (Str × Issue)) (item : FlatItem) :
    (lookupIssue d item.id = none → processLinkItem d item = []) ∧
    (∀ issue pk, lookupIssue d item.id = some issue → parentKeyOf item = some pk →
      lookupIssue d pk = none →
      processLinkItem d item = [LinkEvent.warnNoParent item.id pk]) := by
  constructor
  · intro h
    simp [processLinkItem, h]
  · intro issue pk h1 h2 h3
    simp [processLinkItem, h1, h2, h3]

def witChild8 : FlatItem :=
  { id := S "PALI-E1-S1", kind := Kind.story, phase := S "Phase 1",
    priority := S "P0", title := S "Story", description := [],
    epicId := some (S "PALI-E1"), storyId := none, taskId := none }

def witDir8 : List (Str × Issue) :=
  [(S "PALI-E1", { number := 1, numericId := 10, title := S "[PALI-E1] Epic",
                   body := [], labels := [] })]

/-- Claim C8 (counterexample): a story whose own issue is absent from
the directory is skipped with no create-relationship call but also
with no warning event, contradicting the claim that a warning is
logged whenever either side is missing. -/
theorem linker_silent_on_missing_child :
    parentKeyOf witChild8 = some (S "PALI-E1") ∧
    lookupIssue witDir8 witChild8.id = none ∧
    processLinkItem witDir8 witChild8 = [] := by
  decide

def witDir8b : List (Str × Issue) :=
  [(S "PALI-E1-S1", { number := 3, numericId := 30,
                      title := S "[PALI-E1-S1] Story", body := [], labels := [] })]

/-- Claim C8 witness: with the child present and the parent absent,
exactly the warning event is emitted. -/
theorem linker_missing_issue_behavior_witness :
    processLinkItem witDir8b witChild8 =
      [LinkEvent.warnNoParent (S "PALI-E1-S1") (S "PALI-E1")] :=
  (linker_missing_issue_behavior witDir8b witChild8).2
    { number := 3, numericId := 30, title := S "[PALI-E1-S1] Story",
      body := [], labels := [] }
    (S "PALI-E1") (by decide) (by decide) (by decide)

theorem dropWhile_self (p : Char → Bool) (l : Str) :
    (l.dropWhile p).dropWhile p = l.dropWhile p := by
  induction l with
  | nil => simp
  | cons a t ih =>
    by_cases h : p a
    · simp [List.dropWhile_cons, h, ih]
    · simp [List.dropWhile_cons, h]

theorem dropWhile_head_false {p : Char → Bool} :
    ∀ {l : Str} {c : Char} {t : Str}, l.dropWhile p = c :: t → p c = false := by
  intro l
  induction l with
  | nil => intro c t h; simp at h
  | cons a rest ih =>
    intro c t h
    by_cases ha : p a
    · rw [List.dropWhile_cons, if_pos ha] at h
      exact ih h
    · rw [List.dropWhile_cons, if_neg ha] at h
      cases h
      simpa using ha

theorem pyStrip_idem (l : Str) : pyStrip (pyStrip l) = pyStrip l := by
  cases hd : l.dropWhile isPySpace with
  | nil => simp [pyStrip, hd]
  | cons c t =>
    have hpc : isPySpace c = false := dropWhile_head_false hd
    have he : ((c :: t).reverse).dropWhile isPySpace =
        (t.reverse.dropWhile isPySpace) ++ [c] := by
      rw [List.reverse_cons, List.dropWhile_append]
      split
      · next hEmpty =>
        rw [List.isEmpty_iff] at hEmpty
        rw [hEmpty, List.dropWhile_cons, if_neg (by simp [hpc])]
        simp
      · rfl
    set e := t.reverse.dropWhile isPySpace with hedef
    have hstrip : pyStrip l = c :: e.reverse := by
      unfold pyStrip
      rw [hd, he, List.reverse_append, List.reverse_singleton]
      rfl
    have hee : (e ++ [c]).dropWhile isPySpace = e ++ [c] := by
      cases he2 : e with
      | nil => simp [List.dropWhile_cons, hpc]
      | cons x xs =>
        have hdx : t.reverse.dropWhile isPySpace = x :: xs := by
          rw [← hedef, he2]
        have hx : isPySpace x = false := dropWhile_head_false hdx
        rw [List.cons_append, List.dropWhile_cons, if_neg (by simp [hx])]
    rw [hstrip]
    unfold pyStrip
    rw [List.dropWhile_cons, if_neg (by simp [hpc]), List.reverse_cons,
      List.reverse_reverse, hee, List.reverse_append, List.reverse_singleton]
    rfl

/-- Claim C7: a subtask that omits phase/priority is flattened with
its task's effective (resolved) value, and each level's effective
value is itself the parent's effective value whenever that level omits
the field — so inheritance is transitive through task, story and
epic. -/
theorem subtask_inherits_effective_fields
    (epics : List EpicCfg) (epic : EpicCfg) (story : StoryCfg)
    (task : TaskCfg) (sub : SubCfg)
    (hE : epic ∈ epics) (hS : story ∈ epic.stories)
    (hT : task ∈ story.tasks) (hSub : sub ∈ task.subtasks)
    (hph : sub.phase = none) (hpr : sub.priority = none) :
    ({ id := pyStrip sub.id, kind := Kind.subtask,
       phase := taskEffPhase epic story task,
       priority := taskEffPriority epic story task,
       title := pyStrip sub.title,
       description := pyStrip (pyOr sub.description []),
       epicId := some (pyStrip epic.id), storyId := some (pyStrip story.id),
       taskId := some (pyStrip task.id) } : FlatItem) ∈ loadFlatItems epics ∧
    (task.phase = none → taskEffPhase epic story task = storyEffPhase epic story) ∧
    (task.priority = none →
      taskEffPriority epic story task = storyEffPriority epic story) ∧
    (story.phase = none → storyEffPhase epic story = pyStrip epic.phase) ∧
    (story.priority = none → storyEffPriority epic story = pyStrip epic.priority) := by
  refine ⟨?_, ?_, ?_, ?_, ?_⟩
  · unfold loadFlatItems
    rw [List.mem_flatMap]
    refine ⟨epic, hE, ?_⟩
    refine List.mem_cons_of_mem _ ?_
    rw [List.mem_flatMap]
    refine ⟨story, hS, ?_⟩
    refine List.mem_cons_of_mem _ ?_
    rw [List.mem_flatMap]
    refine ⟨task, hT, ?_⟩
    refine List.mem_cons_of_mem _ ?_
    rw [List.mem_map]
    refine ⟨sub, hSub, ?_⟩
    rw [hph, hpr]
    simp only [pyOr, FlatItem.mk.injEq, taskEffPhase, taskEffPriority,
      storyEffPhase, storyEffPriority, pyStrip_idem]
  · intro h
    rw [taskEffPhase, h]
    simp only [pyOr]
    exact pyStrip_idem _
  · intro h
    rw [taskEffPriority, h]
    simp only [pyOr]
    exact pyStrip_idem _
  · intro h
    rw [storyEffPhase, h]
    simp only [pyOr]
    exact pyStrip_idem _
  · intro h
    rw [storyEffPriority, h]
    simp only [pyOr]
    exact pyStrip_idem _

def witSub7 : SubCfg :=
  { id := S "PALI-E1-S1-T1-ST1", phase := none, priority := none,
    title := S "Subtask", description := none }

def witTask7 : TaskCfg :=
  { id := S "PALI-E1-S1-T1", phase := none, priority := none,
    title := S "Task", description := none, subtasks := [witSub7] }

def witStory7 : StoryCfg :=
  { id := S "PALI-E1-S1", phase := none, priority := none,
    title := S "Story", description := none, tasks := [witTask7] }

def witEpic7 : EpicCfg :=
  { id := S "PALI-E1", phase := S "Alpha", priority := S "P1",
    title := S "Epic", description := none, stories := [witStory7] }

/-- Claim C7 witness: with story, task and subtask all omitting both
fields, the flattened subtask carries the epic's phase and priority. -/
theorem subtask_inherits_effective_fields_witness :
    ({ id := pyStrip witSub7.id, kind := Kind.subtask,
       phase := taskEffPhase witEpic7 witStory7 witTask7,
       priority := taskEffPriority witEpic7 witStory7 witTask7,
       title := pyStrip witSub7.title,
       description := pyStrip (pyOr witSub7.description []),
       epicId := some (pyStrip witEpic7.id),
       storyId := some (pyStrip witStory7.id),
       taskId := some (pyStrip witTask7.id) } : FlatItem) ∈
        loadFlatItems [witEpic7] ∧
    taskEffPhase witEpic7 witStory7 witTask7 = S "Alpha" ∧
    taskEffPriority witEpic7 witStory7 witTask7 = S "P1" :=
  ⟨(subtask_inherits_effective_fields [witEpic7] witEpic7 witStory7 witTask7
      witSub7 (by decide) (by decide) (by decide) (by decide) rfl rfl).1,
   by decide, by decide⟩

theorem eatLit_eq : ∀ (p s r : Str), eatLit p s = some r → s = p ++ r := by
  intro p
  induction p with
  | nil =>
    intro s r h
    simp only [eatLit, Option.some.injEq] at h
    simp [h]
  | cons c pl ih =>
    intro s r h
    cases s with
    | nil => simp [eatLit] at h
    | cons d sl =>
      simp only [eatLit] at h
      by_cases hc : (c == d) = true
      · rw [if_pos hc] at h
        have hcd : c = d := by simpa using hc
        have := ih sl r h
        simp [← hcd, this]
      · rw [if_neg hc] at h
        cases h

theorem eatSeg_chars (lit s r : Str) (h : eatSeg lit s = some r) :
    ∀ c ∈ s, c ∈ lit ∨ c.isDigit = true ∨ c ∈ r := by
  intro c hc
  simp only [eatSeg] at h
  cases he : eatLit lit s with
  | none => rw [he] at h; cases h
  | some r0 =>
    rw [he] at h
    cases r0 with
    | nil => cases h
    | cons c0 t0 =>
      have h2 : (if c0.isDigit = true then
          some (List.dropWhile Char.isDigit (c0 :: t0)) else none) = some r := h
      by_cases hd : c0.isDigit = true
      · rw [if_pos hd] at h2
        have hs := eatLit_eq lit s (c0 :: t0) he
        rw [hs] at hc
        rcases List.mem_append.mp hc with hl | hr
        · exact Or.inl hl
        · have hsplit := List.takeWhile_append_dropWhile (p := Char.isDigit) (l := c0 :: t0)
          rw [← hsplit] at hr
          rcases List.mem_append.mp hr with ht | hdrop
          · exact Or.inr (Or.inl (List.mem_takeWhile_imp ht))
          · have hr2 : r = (c0 :: t0).dropWhile Char.isDigit := by
              injection h2 with h3
              exact h3.symm
            exact Or.inr (Or.inr (hr2 ▸ hdrop))
      · rw [if_neg hd] at h2
        cases h2

theorem foldl_bind_none (lits : List Str) :
    lits.foldl (fun acc lit => acc.bind (eatSeg lit)) none = none := by
  induction lits with
  | nil => rfl
  | cons lit rest ih => simpa [List.foldl_cons] using ih

theorem foldl_eatSeg_chars : ∀ (lits : List Str) (s r : Str),
    lits.foldl (fun acc lit => acc.bind (eatSeg lit)) (some s) = some r →
    ∀ c ∈ s, (∃ lit ∈ lits, c ∈ lit) ∨ c.isDigit = true ∨ c ∈ r := by
  intro lits
  induction lits with
  | nil =>
    intro s r h c hc
    simp only [List.foldl_nil, Option.some.injEq] at h
    exact Or.inr (Or.inr (h ▸ hc))
  | cons lit rest ih =>
    intro s r h c hc
    rw [List.foldl_cons, Option.some_bind] at h
    cases he : eatSeg lit s with
    | none =>
      rw [he, foldl_bind_none] at h
      cases h
    | some s1 =>
      rw [he] at h
      rcases eatSeg_chars lit s s1 he c hc with hl | hdig | hs1
      · exact Or.inl ⟨lit, List.mem_cons_self lit rest, hl⟩
      · exact Or.inr (Or.inl hdig)
      · rcases ih s1 r h c hs1 with ⟨l2, hl2, hcl2⟩ | hdig | hr
        · exact Or.inl ⟨l2, List.mem_cons_of_mem _ hl2, hcl2⟩
        · exact Or.inr (Or.inl hdig)
        · exact Or.inr (Or.inr hr)

theorem digitGood (c : Char) (h : c.isDigit = true) :
    isPySpace c = false ∧ ¬(c = ']') := by
  constructor
  · by_contra hs
    rw [Bool.not_eq_false] at hs
    simp only [isPySpace, Bool.or_eq_true, beq_iff_eq] at hs
    rcases hs with ((((h1 | h1) | h1) | h1) | h1) | h1 <;> subst h1 <;>
      exact absurd h (by decide)
  · rintro rfl
    exact absurd h (by decide)

theorem kindSegLits_sub (k : Kind) (lit : Str) (h : lit ∈ kindSegLits k) :
    lit ∈ [S "PALI-E", S "-S", S "-T", S "-ST"] := by
  cases k <;> simp only [kindSegLits, List.mem_cons, List.mem_singleton,
    List.not_mem_nil] at h ⊢ <;> tauto

theorem litGood (lit : Str) (hl : lit ∈ [S "PALI-E", S "-S", S "-T", S "-ST"]) :
    ∀ c ∈ lit, isPySpace c = false ∧ ¬(c = ']') := by
  fin_cases hl <;> decide

theorem idRegexMatch_chars (k : Kind) (s : Str) (h : idRegexMatch k s = true) :
    ∀ c ∈ s, isPySpace c = false ∧ ¬(c = ']') := by
  intro c hc
  unfold idRegexMatch at h
  cases hf : (kindSegLits k).foldl (fun acc lit => acc.bind (eatSeg lit)) (some s) with
  | none => rw [hf] at h; cases h
  | some rest =>
    rw [hf] at h
    have hrest : rest = [] := by
      rwa [List.isEmpty_iff] at h
    rcases foldl_eatSeg_chars (kindSegLits k) s rest hf c hc with
      ⟨lit, hlit, hcl⟩ | hdig | hcr
    · exact litGood lit (kindSegLits_sub k lit hlit) c hcl
    · exact digitGood c hdig
    · rw [hrest] at hcr
      cases hcr

theorem dropWhile_of_forall_false (p : Char → Bool) (l : Str)
    (h : ∀ c ∈ l, p c = false) : l.dropWhile p = l := by
  induction l with
  | nil => rfl
  | cons a t ih =>
    rw [List.dropWhile_cons, if_neg (by simp [h a (List.mem_cons_self a t)])]

theorem pyStrip_of_good (l : Str) (h : ∀ c ∈ l, isPySpace c = false) :
    pyStrip l = l := by
  unfold pyStrip
  rw [dropWhile_of_forall_false _ _ h,
    dropWhile_of_forall_false _ _ (fun c hc => h c (List.mem_reverse.mp hc)),
    List.reverse_reverse]

theorem dropWhile_append_keep (p : Char → Bool) (xs : Str) (c : Char) (ys : Str)
    (hc : p c = false) :
    (xs ++ c :: ys).dropWhile p = xs.dropWhile p ++ c :: ys := by
  rw [List.dropWhile_append]
  split
  · next h =>
    rw [List.isEmpty_iff] at h
    rw [h, List.dropWhile_cons, if_neg (by simp [hc])]
    simp
  · rfl

theorem findIdx_append_first (p : Char → Bool) :
    ∀ (l1 : Str), (∀ c ∈ l1, p c = false) → ∀ (x : Char), p x = true →
      ∀ (l2 : Str) (i : Nat),
        List.findIdx? p (l1 ++ x :: l2) i = some (i + l1.length) := by
  intro l1
  induction l1 with
  | nil =>
    intro _ x hx l2 i
    simp [List.findIdx?_cons, hx]
  | cons a t ih =>
    intro h1 x hx l2 i
    have ha : p a = false := h1 a (List.mem_cons_self a t)
    rw [List.cons_append, List.findIdx?_cons, if_neg (by simp [ha]),
      ih (fun c hc => h1 c (List.mem_cons_of_mem _ hc)) x hx l2 (i + 1)]
    congr 1
    simp only [List.length_cons]
    omega

/-- The shape of `pyStrip` applied to a rendered title: the bracketed
identifier part survives stripping untouched. -/
theorem pyStrip_desiredTitle (id title : Str) :
    ∃ rest, pyStrip ('[' :: id ++ ']' :: ' ' :: title) =
      '[' :: (id ++ ']' :: rest) := by
  refine ⟨((' ' :: title).reverse.dropWhile isPySpace).reverse, ?_⟩
  have hshape : ('[' :: id ++ ']' :: ' ' :: title : Str) =
      (('[' :: id) ++ [']']) ++ (' ' :: title) := by
    simp
  unfold pyStrip
  rw [hshape]
  have hlead : ((('[' :: id) ++ [']']) ++ (' ' :: title)).dropWhile isPySpace =
      (('[' :: id) ++ [']']) ++ (' ' :: title) := by
    rw [List.append_assoc, List.cons_append, List.dropWhile_cons,
      if_neg (by decide)]
  rw [hlead, List.reverse_append, List.reverse_append, List.reverse_singleton,
    List.singleton_append, dropWhile_append_keep _ _ _ _ (by decide)]
  rw [List.reverse_append, List.reverse_cons, List.reverse_reverse]
  simp

theorem extractIdFromTitle_bracket (title id rest : Str)
    (hT : pyStrip title = '[' :: (id ++ ']' :: rest))
    (hid : ∀ c ∈ id, isPySpace c = false ∧ ¬(c = ']')) :
    extractIdFromTitle title = some id := by
  have hne : ∀ c ∈ id, ((fun ch => ch == ']') c) = false := fun c hc => by
    simpa using (hid c hc).2
  have hfind : List.findIdx? (fun ch => ch == ']')
      ('[' :: (id ++ ']' :: rest)) 0 = some (id.length + 1) := by
    rw [List.findIdx?_cons, if_neg (by decide),
      findIdx_append_first _ id hne ']' (by decide) rest 1, Nat.add_comm]
  simp only [extractIdFromTitle]
  rw [hT, List.head?_cons, if_pos rfl, hfind]
  simp only [List.drop_one, List.tail_cons, Nat.add_sub_cancel, List.take_left]
  rw [pyStrip_of_good id (fun c hc => (hid c hc).1)]

/-- Claim C2: for every work item whose identifier matches its kind's
`id_regex`, `extract_id_from_title` applied to `desired_title` returns
exactly the item's identifier (title round-trip). -/
theorem extractId_desiredTitle_roundtrip (item : FlatItem)
    (h : idRegexMatch item.kind item.id = true) :
    extractIdFromTitle (desiredTitle item) = some item.id := by
  have hgood := idRegexMatch_chars item.kind item.id h
  obtain ⟨rest, hT⟩ := pyStrip_desiredTitle item.id item.title
  have hdt : desiredTitle item = '[' :: item.id ++ ']' :: ' ' :: item.title := rfl
  refine extractIdFromTitle_bracket (desiredTitle item) item.id rest ?_ hgood
  rw [hdt, hT]

def witItem2 : FlatItem :=
  { id := S "PALI-E1-S2", kind := Kind.story, phase := S "Phase 1",
    priority := S "P0", title := S "Some [weird] title", description := [],
    epicId := some (S "PALI-E1"), storyId := none, taskId := none }

/-- Claim C2 witness: round-trip on a concrete story item whose title
itself contains brackets. -/
theorem extractId_desiredTitle_roundtrip_witness :
    extractIdFromTitle (desiredTitle witItem2) = some (S "PALI-E1-S2") :=
  extractId_desiredTitle_roundtrip witItem2 (by decide)
